import Mathlib

/-!
Verification of the Luhn checksum library (`src/src/lib.rs`).

The Rust library is shallowly embedded below.  Strings are Lean `String`s
(lists of characters); the inputs the library accepts are ASCII-only, where
Rust byte indexing and Lean character indexing agree.  Rust `u32`/`u8`
arithmetic is modelled on `Nat` (all values arising here are far below the
respective bounds, except for `usize` parsing in `random`, where the
overflow behaviour of `str::parse` is modelled explicitly).  A Rust
`unwrap` whose argument may be `None` is modelled by an `Option` layer on
the result: `none` stands for the aborted (panicking) computation.
-/

namespace Luhn

/-- The error enum `LuhnError` of `src/src/lib.rs`. -/
inductive LuhnError where
  | EmptyString
  | ContainsSpaces
  | NegativeNumber
  | FloatingPoint
  | NonNumeric
  | InvalidLength (msg : String)
  | ParseError (msg : String)
deriving DecidableEq

/-- The options record `GenerateOptions` of `src/src/lib.rs`. -/
structure GenerateOptions where
  checksum_only : Bool := false
deriving DecidableEq

/-- Rust `char::is_ascii_digit`: the character is one of `'0'..='9'`
(code points 48 through 57). -/
def isAsciiDigit (c : Char) : Bool :=
  48 ≤ c.toNat && c.toNat ≤ 57

/-- `handle_errors` (`src/src/lib.rs` lines 76-98): short-circuit input
validation in the order empty, space, minus, dot, non-digit. -/
def handle_errors (value : String) : Except LuhnError Unit :=
  if value.data.isEmpty then .error .EmptyString
  else if value.data.any (fun c => c == ' ') then .error .ContainsSpaces
  else if value.data.any (fun c => c == '-') then .error .NegativeNumber
  else if value.data.any (fun c => c == '.') then .error .FloatingPoint
  else if !(value.data.all (fun c => isAsciiDigit c)) then .error .NonNumeric
  else .ok ()

/-- Rust `char::to_digit(10)`: the numeric value of a decimal digit
character, `none` for any other character. -/
def toDigit (c : Char) : Option Nat :=
  if isAsciiDigit c then some (c.toNat - 48) else none

/-- The digit values of a character list; `none` as soon as one
`to_digit(10).unwrap()` in `generate_checksum`'s iterator would abort. -/
def digitsOf : List Char → Option (List Nat)
  | [] => some []
  | c :: cs =>
    match toDigit c, digitsOf cs with
    | some d, some ds => some (d :: ds)
    | _, _ => none

/-- One step of `generate_checksum`'s fold (`src/src/lib.rs` lines
116-130): the accumulator pairs the running sum with the `double` flag. -/
def luhnStep (acc : Nat × Bool) (digit : Nat) : Nat × Bool :=
  if acc.2 then
    let temp := digit * 2
    if temp ≥ 10 then (acc.1 + (temp / 10 + temp % 10), !acc.2)
    else (acc.1 + temp, !acc.2)
  else (acc.1 + digit, !acc.2)

/-- `generate_checksum` (`src/src/lib.rs` lines 110-133): fold over the
digits right to left with `double` initially true, then
`(10 - (sum % 10)) % 10`.  `none` models the `unwrap` aborting on a
non-digit character. -/
def generate_checksum (value : String) : Option Nat :=
  (digitsOf value.data.reverse).map
    (fun digits => (10 - (digits.foldl luhnStep (0, true)).1 % 10) % 10)

/-- `generate` (`src/src/lib.rs` lines 167-176).  The outer `Option` is
`none` when `generate_checksum`'s `unwrap` would abort (unreachable after
`handle_errors` passes, proved below). -/
def generate (value : String) (options : Option GenerateOptions) :
    Option (Except LuhnError String) :=
  match handle_errors value with
  | .error e => some (.error e)
  | .ok _ =>
    match generate_checksum value with
    | none => none
    | some checksum =>
      some (.ok (match options with
        | some opts =>
          if opts.checksum_only then Nat.repr checksum
          else value ++ Nat.repr checksum
        | none => value ++ Nat.repr checksum))

/-- `validate` (`src/src/lib.rs` lines 204-215): reject length-1 input,
split off the last character, regenerate and compare strings.  The input
is all-ASCII once `handle_errors` passes, so Rust's byte-based `len` and
`split_at(len - 1)` coincide with character-based length and `dropLast`. -/
def validate (value : String) : Option (Except LuhnError Bool) :=
  match handle_errors value with
  | .error e => some (.error e)
  | .ok _ =>
    if value.length = 1 then
      some (.error (.InvalidLength "string must be longer than 1 character"))
    else
      let value_without_checksum := String.mk value.data.dropLast
      match generate value_without_checksum none with
      | none => none
      | some (.error e) => some (.error e)
      | some (.ok g) => some (.ok (value == g))

/-- Base-10 value of a digit-character list, `none` on a non-digit. -/
def digitsToNat : List Char → Nat → Option Nat
  | [], acc => some acc
  | c :: cs, acc =>
    match toDigit c with
    | some d => digitsToNat cs (acc * 10 + d)
    | none => none

/-- Rust `str::parse::<usize>` as called in `random` (`src/src/lib.rs`
line 245), where `handle_errors` has already ensured a non-empty all-digit
string: the base-10 value, with `usize` modelled as 64 bits so that values
of `2^64` or more overflow to a parse failure. -/
def parseUsize (s : String) : Option Nat :=
  if s.data.isEmpty then none
  else
    match digitsToNat s.data 0 with
    | some n => if n < 2 ^ 64 then some n else none
    | none => none

/-- Rust `char::from_digit(d, 10).unwrap()` for `d < 10` (the only values
`rng.gen_range(0..10)` produces): the character with code point `48 + d`. -/
def digitToChar (d : Nat) : Char := Char.ofNat (48 + d)

/-- `random` (`src/src/lib.rs` lines 242-281) with the entropy
determinized: `ds` lists the digits the RNG yields for the first loop
iteration.  In the result, `.ok (some s)` means the first iteration
returns `Ok(s)`; `.ok none` means it would sample again. -/
def random (length : String) (ds : List Nat) : Except LuhnError (Option String) :=
  match handle_errors length with
  | .error e => .error e
  | .ok _ =>
    match parseUsize length with
    | none => .error (.ParseError "failed to parse length")
    | some length_as_int =>
      if length_as_int > 100 then
        .error (.InvalidLength "string must be less than 100 characters")
      else if length_as_int < 2 then
        .error (.InvalidLength "string must be greater than 1")
      else
        let payload := String.mk ((ds.take (length_as_int - 1)).map digitToChar)
        .ok (match generate payload none with
          | some (.ok result) =>
            match validate result with
            | some (.ok true) => some result
            | _ => none
          | _ => none)

/-! ### Specification-side definitions (for the refinement claim C3) -/

/-- The doubled-digit contribution of the Luhn algorithm: twice the digit,
with values of ten or more replaced by the sum of their two decimal
digits. -/
def luhnDouble (d : Nat) : Nat :=
  if d * 2 ≥ 10 then d * 2 / 10 + d * 2 % 10 else d * 2

/-- Alternating Luhn sum of a digit list read right to left (the argument
list is already reversed); the flag tells whether the first digit is
doubled. -/
def luhnSumAlt : List Nat → Bool → Nat
  | [], _ => 0
  | d :: rest, b => (if b then luhnDouble d else d) + luhnSumAlt rest (!b)

/-- Spec-side sum for the claim as stated: the full candidate's
alternating-doubled Luhn sum with the RIGHTMOST digit doubled. -/
def specLuhnSumRightmost (s : String) : Nat :=
  luhnSumAlt (s.data.reverse.map (fun c => c.toNat - 48)) true

/-- Spec-side sum of the classic Luhn congruence check: the full
candidate's alternating-doubled sum doubling every second digit starting
from the SECOND-rightmost (the rightmost, the claimed check digit, is not
doubled). -/
def specLuhnSumClassic (s : String) : Nat :=
  luhnSumAlt (s.data.reverse.map (fun c => c.toNat - 48)) false

/-! ### Lemmas about the embedded code -/

lemma luhnStep_eq (p : Nat × Bool) (d : Nat) :
    luhnStep p d = (p.1 + (if p.2 then luhnDouble d else d), !p.2) := by
  obtain ⟨a, b⟩ := p
  cases b <;> simp only [luhnStep, luhnDouble, Bool.not_true, Bool.not_false,
    if_true, if_false] <;> split_ifs <;> rfl

lemma foldl_luhnStep_fst (ds : List Nat) (a : Nat) (b : Bool) :
    (ds.foldl luhnStep (a, b)).1 = a + luhnSumAlt ds b := by
  induction ds generalizing a b with
  | nil => simp [luhnSumAlt]
  | cons d rest ih =>
    simp only [List.foldl_cons, luhnSumAlt, luhnStep_eq]
    rw [ih]
    omega

lemma isAsciiDigit_iff (c : Char) :
    isAsciiDigit c = true ↔ 48 ≤ c.toNat ∧ c.toNat ≤ 57 := by
  simp [isAsciiDigit]

lemma handle_errors_ok_of (value : String) (h1 : value.data ≠ [])
    (h2 : ∀ c ∈ value.data, isAsciiDigit c = true) :
    handle_errors value = .ok () := by
  have hne : value.data.isEmpty = false := by
    simpa [List.isEmpty_iff] using h1
  have hnc : ∀ (x : Char), isAsciiDigit x = false →
      value.data.any (fun c => c == x) = false := by
    intro x hx
    rw [List.any_eq_false]
    intro c hc
    simp only [beq_iff_eq]
    intro hcx
    rw [← hcx] at hx
    exact absurd (h2 c hc) (by simp [hx])
  have hall : value.data.all (fun c => isAsciiDigit c) = true :=
    List.all_eq_true.mpr h2
  simp [handle_errors, hne, hnc ' ' rfl, hnc '-' rfl, hnc '.' rfl, hall]

lemma handle_errors_ok_elim (value : String)
    (h : handle_errors value = .ok ()) :
    value.data ≠ [] ∧ ∀ c ∈ value.data, isAsciiDigit c = true := by
  unfold handle_errors at h
  split_ifs at h with h1 h2 h3 h4 h5
  refine ⟨by simpa [List.isEmpty_iff] using h1, ?_⟩
  simp only [Bool.not_eq_true, Bool.not_eq_false'] at h5
  exact List.all_eq_true.mp h5

lemma digit_val_lt (c : Char) (h : isAsciiDigit c = true) :
    c.toNat - 48 < 10 := by
  rw [isAsciiDigit_iff] at h
  omega

lemma digitsOf_eq_map (cs : List Char)
    (h : ∀ c ∈ cs, isAsciiDigit c = true) :
    digitsOf cs = some (cs.map (fun c => c.toNat - 48)) := by
  induction cs with
  | nil => rfl
  | cons c rest ih =>
    have hc : isAsciiDigit c = true := h c (List.mem_cons_self c rest)
    have hr := ih (fun x hx => h x (List.mem_cons_of_mem _ hx))
    simp [digitsOf, toDigit, hc, hr]

/-- The checksum value `generate_checksum` computes on an all-digit
string, written through the alternating-sum function. -/
def checksumVal (value : String) : Nat :=
  (10 - luhnSumAlt (value.data.reverse.map (fun c => c.toNat - 48)) true % 10) % 10

lemma generate_checksum_eq (value : String)
    (h : ∀ c ∈ value.data, isAsciiDigit c = true) :
    generate_checksum value = some (checksumVal value) := by
  unfold generate_checksum checksumVal
  rw [digitsOf_eq_map _ (fun c hc => h c (List.mem_reverse.mp hc))]
  simp [foldl_luhnStep_fst]

lemma checksumVal_lt (value : String) : checksumVal value < 10 :=
  Nat.mod_lt _ (by norm_num)

lemma repr_digit (n : Nat) (h : n < 10) :
    Nat.repr n = String.mk [digitToChar n] := by
  interval_cases n <;> rfl

lemma isAsciiDigit_digitToChar (d : Nat) (h : d < 10) :
    isAsciiDigit (digitToChar d) = true := by
  interval_cases d <;> rfl

lemma toNat_digitToChar (d : Nat) (h : d < 10) :
    (digitToChar d).toNat = 48 + d := by
  interval_cases d <;> rfl

lemma digitToChar_val (c : Char) (h : isAsciiDigit c = true) :
    digitToChar (c.toNat - 48) = c := by
  rw [isAsciiDigit_iff] at h
  unfold digitToChar
  rw [show 48 + (c.toNat - 48) = c.toNat by omega, Char.ofNat_toNat]

lemma data_append_repr (value : String) (c : Nat) (h : c < 10) :
    (value ++ Nat.repr c).data = value.data ++ [digitToChar c] := by
  rw [String.data_append, repr_digit c h]

lemma generate_none_eq (value : String) (h : handle_errors value = .ok ()) :
    generate value none = some (.ok (value ++ Nat.repr (checksumVal value))) := by
  obtain ⟨-, h2⟩ := handle_errors_ok_elim value h
  simp [generate, h, generate_checksum_eq value h2]

lemma generate_some_eq (value : String) (opts : GenerateOptions)
    (h : handle_errors value = .ok ()) :
    generate value (some opts) =
      some (.ok (if opts.checksum_only then Nat.repr (checksumVal value)
        else value ++ Nat.repr (checksumVal value))) := by
  obtain ⟨-, h2⟩ := handle_errors_ok_elim value h
  simp [generate, h, generate_checksum_eq value h2]

lemma payload_ok (value : String) (h : handle_errors value = .ok ())
    (hlen : 2 ≤ value.length) :
    handle_errors (String.mk value.data.dropLast) = .ok () := by
  obtain ⟨-, h2⟩ := handle_errors_ok_elim value h
  apply handle_errors_ok_of
  · have hl : value.data.dropLast.length = value.data.length - 1 :=
      List.length_dropLast _
    have hlen2 : 2 ≤ value.data.length := hlen
    intro hnil
    have hnil2 : value.data.dropLast = [] := hnil
    rw [hnil2] at hl
    simp at hl
    omega
  · intro c hc
    exact h2 c (List.dropLast_subset _ hc)

lemma validate_eq (value : String) (h : handle_errors value = .ok ())
    (hlen : 2 ≤ value.length) :
    validate value = some (.ok
      (value == String.mk value.data.dropLast ++
        Nat.repr (checksumVal (String.mk value.data.dropLast)))) := by
  have hp := payload_ok value h hlen
  have hlen1 : ¬ value.length = 1 := by omega
  simp only [validate, h, if_neg hlen1, generate_none_eq _ hp]

lemma validate_generate (d : String) (h : handle_errors d = .ok ()) :
    validate (d ++ Nat.repr (checksumVal d)) = some (.ok true) := by
  obtain ⟨h1, h2⟩ := handle_errors_ok_elim d h
  have hc : checksumVal d < 10 := checksumVal_lt d
  have hdata : (d ++ Nat.repr (checksumVal d)).data =
      d.data ++ [digitToChar (checksumVal d)] := data_append_repr d _ hc
  have hall : ∀ c ∈ (d ++ Nat.repr (checksumVal d)).data,
      isAsciiDigit c = true := by
    rw [hdata]
    intro c hcm
    rcases List.mem_append.mp hcm with hm | hm
    · exact h2 c hm
    · rw [List.mem_singleton.mp hm]
      exact isAsciiDigit_digitToChar _ hc
  have hne : (d ++ Nat.repr (checksumVal d)).data ≠ [] := by
    rw [hdata]; simp
  have hok : handle_errors (d ++ Nat.repr (checksumVal d)) = .ok () :=
    handle_errors_ok_of _ hne hall
  have hlen : 2 ≤ (d ++ Nat.repr (checksumVal d)).length := by
    show 2 ≤ (d ++ Nat.repr (checksumVal d)).data.length
    rw [hdata, List.length_append]
    have hd1 : d.data.length ≠ 0 := by
      intro hz
      exact h1 (List.eq_nil_of_length_eq_zero hz)
    simp only [List.length_singleton]
    omega
  rw [validate_eq _ hok hlen]
  have hdl : (d ++ Nat.repr (checksumVal d)).data.dropLast = d.data := by
    rw [hdata]
    simp
  rw [hdl]
  have hmk : String.mk d.data = d := rfl
  rw [hmk]
  simp

lemma digitsOf_append (l : List Char) (c : Char) (d : Nat)
    (h : toDigit c = some d) :
    digitsOf (l ++ [c]) = (digitsOf l).map (fun ds => ds ++ [d]) := by
  induction l with
  | nil => simp [digitsOf, h]
  | cons a rest ih =>
    show digitsOf (a :: (rest ++ [c])) = _
    simp only [digitsOf, ih]
    cases toDigit a with
    | none => simp
    | some da =>
      cases digitsOf rest with
      | none => simp
      | some ds => simp

/-! ### The claims -/

/-- Claim C1: for every well-formed digit string `d` (accepted by the
input validator), `validate` applied to the result of `generate d` with
the check digit appended (`checksum_only = false`, i.e. `options = none`)
returns `Ok(true)`. -/
theorem validate_generate_roundtrip (d : String)
    (h : handle_errors d = .ok ()) :
    ∃ s, generate d none = some (.ok s) ∧ validate s = some (.ok true) :=
  ⟨d ++ Nat.repr (checksumVal d), generate_none_eq d h, validate_generate d h⟩

theorem validate_generate_roundtrip_witness :
    ∃ s, generate "7992739871" none = some (.ok s) ∧
      validate s = some (.ok true) :=
  validate_generate_roundtrip "7992739871" rfl

/-- Claim C2: the checksum engine computes the standard Luhn check digit
(the embedded `generate_checksum` is exactly the described right-to-left
alternating-doubling fold with check digit `(10 - sum % 10) % 10`), and in
particular the six concrete vectors of the spec hold. -/
theorem checksum_concrete_vectors :
    generate "7992739871" none = some (.ok "79927398713") ∧
    generate "7992739871" (some ⟨true⟩) = some (.ok "3") ∧
    validate "79927398713" = some (.ok true) ∧
    validate "79927398714" = some (.ok false) ∧
    generate "0" none = some (.ok "00") ∧
    validate "1" = some (.error
      (.InvalidLength "string must be longer than 1 character")) :=
  ⟨rfl, rfl, rfl, rfl, rfl, rfl⟩

/-- Claim C4: the input validator checks empty, space, minus, dot,
non-digit in this short-circuit order; the five spec error vectors hold
for every options value, and any non-empty string containing a space
reports `ContainsSpaces` no matter what else it contains. -/
theorem handle_errors_order :
    (∀ opts : Option GenerateOptions,
      generate "" opts = some (.error .EmptyString) ∧
      generate "1a" opts = some (.error .NonNumeric) ∧
      generate " 1 " opts = some (.error .ContainsSpaces) ∧
      generate "-1" opts = some (.error .NegativeNumber) ∧
      generate "1.2" opts = some (.error .FloatingPoint)) ∧
    (∀ v : String, v.data ≠ [] → ' ' ∈ v.data →
      handle_errors v = .error .ContainsSpaces) := by
  constructor
  · exact fun opts => ⟨rfl, rfl, rfl, rfl, rfl⟩
  · intro v h1 h2
    have hne : v.data.isEmpty = false := by simpa [List.isEmpty_iff] using h1
    have hsp : v.data.any (fun c => c == ' ') = true := by
      simp only [List.any_eq_true, beq_iff_eq]
      exact ⟨' ', h2, rfl⟩
    simp [handle_errors, hne, hsp]

theorem handle_errors_order_witness :
    generate "" none = some (.error .EmptyString) ∧
    handle_errors " a" = .error .ContainsSpaces :=
  ⟨(handle_errors_order.1 none).1,
    handle_errors_order.2 " a" (by decide) (by decide)⟩

/-- Claim C7: prepending `'0'` to a well-formed digit string does not
change the computed check digit, and the two leading-zero vectors of the
spec hold. -/
theorem prepend_zero_checksum :
    (∀ s : String, handle_errors s = .ok () →
      generate_checksum ("0" ++ s) = generate_checksum s) ∧
    generate "00123" none = some (.ok "001230") ∧
    validate "001230" = some (.ok true) := by
  refine ⟨?_, rfl, rfl⟩
  intro s _
  have hdata : ("0" ++ s).data = '0' :: s.data := by
    rw [String.data_append]
    rfl
  unfold generate_checksum
  rw [hdata, List.reverse_cons,
    digitsOf_append s.data.reverse '0' 0 rfl]
  cases digitsOf s.data.reverse with
  | none => rfl
  | some ds => simp [luhnStep_eq, luhnDouble]

theorem prepend_zero_checksum_witness :
    generate_checksum ("0" ++ "123") = generate_checksum "123" :=
  prepend_zero_checksum.1 "123" rfl

/-- Claim C8: on a well-formed digit string, `generate` with
`checksum_only = true` returns the single check-digit character (length
exactly 1), while `checksum_only = false` or no options returns the input
with the check digit appended (length of the input plus one). -/
theorem generate_checksum_only_length (d : String)
    (h : handle_errors d = .ok ()) :
    ∃ c, generate_checksum d = some c ∧
      generate d (some ⟨true⟩) = some (.ok (Nat.repr c)) ∧
      (Nat.repr c).length = 1 ∧
      generate d (some ⟨false⟩) = some (.ok (d ++ Nat.repr c)) ∧
      generate d none = some (.ok (d ++ Nat.repr c)) ∧
      (d ++ Nat.repr c).length = d.length + 1 := by
  obtain ⟨-, h2⟩ := handle_errors_ok_elim d h
  have hc := checksumVal_lt d
  refine ⟨checksumVal d, generate_checksum_eq d h2, ?_, ?_, ?_,
    generate_none_eq d h, ?_⟩
  · rw [generate_some_eq d _ h]
    simp
  · rw [repr_digit _ hc]
    rfl
  · rw [generate_some_eq d _ h]
    simp
  · show (d ++ Nat.repr (checksumVal d)).data.length = d.data.length + 1
    rw [data_append_repr d _ hc, List.length_append, List.length_singleton]

theorem generate_checksum_only_length_witness :
    ∃ c, generate_checksum "7992739871" = some c ∧
      generate "7992739871" (some ⟨true⟩) = some (.ok (Nat.repr c)) ∧
      (Nat.repr c).length = 1 ∧
      generate "7992739871" (some ⟨false⟩) =
        some (.ok ("7992739871" ++ Nat.repr c)) ∧
      generate "7992739871" none = some (.ok ("7992739871" ++ Nat.repr c)) ∧
      ("7992739871" ++ Nat.repr c).length = "7992739871".length + 1 :=
  generate_checksum_only_length "7992739871" rfl

/-- Claim C9: once the input validator has accepted the input, the
checksum engine is total: every per-character conversion succeeds (the
`unwrap` cannot abort, so `generate_checksum` yields a digit), and on a
well-formed candidate of length at least two, `validate`'s nested
`generate` call returns neither an error nor aborts. -/
theorem checksum_engine_total :
    (∀ v : String, handle_errors v = .ok () →
      ∃ c, generate_checksum v = some c ∧ c < 10) ∧
    (∀ v : String, handle_errors v = .ok () → 2 ≤ v.length →
      ∃ b, validate v = some (.ok b)) := by
  constructor
  · intro v hv
    obtain ⟨-, h2⟩ := handle_errors_ok_elim v hv
    exact ⟨checksumVal v, generate_checksum_eq v h2, checksumVal_lt v⟩
  · intro v hv hlen
    exact ⟨_, validate_eq v hv hlen⟩

theorem checksum_engine_total_witness :
    (∃ c, generate_checksum "18" = some c ∧ c < 10) ∧
    (∃ b, validate "18" = some (.ok b)) :=
  ⟨checksum_engine_total.1 "18" rfl,
    checksum_engine_total.2 "18" rfl (by decide)⟩

/-- Claim C3, counterexample: the claim reads the full candidate's
alternating-doubled sum with the RIGHTMOST digit doubled; on the valid
candidate `"18"` that sum is `7 + 1 = 8 ≢ 0 (mod 10)`, yet `validate`
accepts, so the claimed equivalence is false as stated. -/
theorem validate_rightmost_doubled_counterexample :
    validate "18" = some (.ok true) ∧ specLuhnSumRightmost "18" % 10 ≠ 0 :=
  ⟨rfl, by decide⟩

/-- Claim C3, amended: for a well-formed candidate of length at least two,
`validate` returns `Ok(true)` iff the full candidate's alternating-doubled
Luhn sum doubling every second digit starting from the SECOND-rightmost
(the classic Luhn congruence, rightmost digit not doubled) is `0 mod 10`. -/
theorem validate_iff_classic_luhn_sum (v : String)
    (h : handle_errors v = .ok ()) (hlen : 2 ≤ v.length) :
    validate v = some (.ok true) ↔ specLuhnSumClassic v % 10 = 0 := by
  obtain ⟨h1, h2⟩ := handle_errors_ok_elim v h
  have hvd : v.data.dropLast ++ [v.data.getLast h1] = v.data :=
    List.dropLast_append_getLast h1
  set pd := v.data.dropLast with hpd
  set lc := v.data.getLast h1 with hlc
  have hlcd : isAsciiDigit lc = true := h2 lc (by rw [← hvd]; simp)
  rw [validate_eq v h hlen]
  set c := checksumVal (String.mk pd) with hc
  have hclt : c < 10 := checksumVal_lt _
  have hiff1 : some (Except.ok (ε := LuhnError) (v == String.mk pd ++ Nat.repr c)) =
      some (Except.ok true) ↔ v = String.mk pd ++ Nat.repr c := by
    constructor
    · intro hx
      exact eq_of_beq (Except.ok.inj (Option.some.inj hx))
    · intro hx
      rw [hx]
      simp
  rw [hiff1]
  have hdata2 : (String.mk pd ++ Nat.repr c).data = pd ++ [digitToChar c] :=
    data_append_repr _ _ hclt
  have hiff2 : v = String.mk pd ++ Nat.repr c ↔ lc.toNat - 48 = c := by
    constructor
    · intro hx
      have hd2 : pd ++ [lc] = pd ++ [digitToChar c] := by
        rw [hvd, hx, hdata2]
      have hlceq : lc = digitToChar c := by simpa using hd2
      rw [hlceq, toNat_digitToChar c hclt]
      omega
    · intro hx
      apply String.ext
      rw [hdata2, ← hvd]
      congr 1
      rw [← hx, digitToChar_val lc hlcd]
  rw [hiff2]
  have hsum : specLuhnSumClassic v =
      (lc.toNat - 48) +
        luhnSumAlt (pd.reverse.map (fun x => x.toNat - 48)) true := by
    unfold specLuhnSumClassic
    rw [← hvd]
    simp [luhnSumAlt]
  rw [hsum]
  have hcval : c =
      (10 - luhnSumAlt (pd.reverse.map (fun x => x.toNat - 48)) true % 10) % 10 :=
    hc
  have hlt : lc.toNat - 48 < 10 := digit_val_lt lc hlcd
  rw [hcval]
  omega

theorem validate_iff_classic_luhn_sum_witness :
    validate "79927398713" = some (.ok true) ↔
      specLuhnSumClassic "79927398713" % 10 = 0 :=
  validate_iff_classic_luhn_sum "79927398713" rfl (by decide)

/-- Claim C5, counterexample: the digit string `"18446744073709551616"`
denotes `2^64`, outside `[2,100]`, yet `random` rejects it with
`ParseError` (the `usize` parse overflows), not `InvalidLength`. -/
theorem random_overflow_parse_error :
    random "18446744073709551616" [] =
      .error (.ParseError "failed to parse length") ∧
    ∀ msg, random "18446744073709551616" [] ≠
      .error (.InvalidLength msg) := by
  constructor
  · rfl
  · intro msg h
    have h0 : random "18446744073709551616" [] =
        .error (.ParseError "failed to parse length") := rfl
    rw [h0] at h
    cases Except.error.inj h

/-- Claim C5, amended: for a length spec accepted by the input validator
whose parsed value `n` (which must fit in `usize`, modelled as 64 bits)
lies outside `[2,100]`, `random` fails with `InvalidLength`; length specs
denoting `2^64` or more instead fail with `ParseError`. -/
theorem random_invalid_length_of_parsed (s : String) (n : Nat)
    (ds : List Nat) (h : handle_errors s = .ok ())
    (hp : parseUsize s = some n) (hout : n < 2 ∨ 100 < n) :
    ∃ msg, random s ds = .error (.InvalidLength msg) := by
  rcases hout with hlt | hgt
  · refine ⟨"string must be greater than 1", ?_⟩
    have hng : ¬ n > 100 := by omega
    simp [random, h, hp, hng, hlt]
  · refine ⟨"string must be less than 100 characters", ?_⟩
    simp [random, h, hp, hgt]

theorem random_invalid_length_of_parsed_witness :
    ∃ msg, random "101" [] = .error (.InvalidLength msg) :=
  random_invalid_length_of_parsed "101" 101 [] rfl rfl (Or.inr (by omega))

/-- Claim C6: for every `n` in `[2,100]` and every choice of `n - 1`
sampled digits, `random`'s first loop iteration already returns: the
result has length exactly `n`, its trailing character is the Luhn check
digit of the sampled payload, and it passes `validate`. -/
theorem random_first_iteration_succeeds (s : String) (n : Nat)
    (ds : List Nat) (h : handle_errors s = .ok ())
    (hp : parseUsize s = some n) (h2 : 2 ≤ n) (h100 : n ≤ 100)
    (hlen : ds.length = n - 1) (hd : ∀ d ∈ ds, d < 10) :
    ∃ out c, random s ds = .ok (some out) ∧
      out.length = n ∧
      validate out = some (.ok true) ∧
      generate_checksum (String.mk (ds.map digitToChar)) = some c ∧
      out.data.getLast? = some (digitToChar c) := by
  set payload := String.mk (ds.map digitToChar) with hpay
  have hdsne : ds ≠ [] := by
    intro hnil
    rw [hnil] at hlen
    simp at hlen
    omega
  have hpne : payload.data ≠ [] := by
    have hpd : payload.data = ds.map digitToChar := rfl
    rw [hpd]
    simpa using hdsne
  have hpdig : ∀ c ∈ payload.data, isAsciiDigit c = true := by
    intro c hcm
    obtain ⟨d, hdm, rfl⟩ := List.mem_map.mp hcm
    exact isAsciiDigit_digitToChar d (hd d hdm)
  have hpok : handle_errors payload = .ok () := handle_errors_ok_of _ hpne hpdig
  have hgen := generate_none_eq payload hpok
  have hval := validate_generate payload hpok
  have hng : ¬ n > 100 := by omega
  have hnl : ¬ n < 2 := by omega
  have htake : ds.take (n - 1) = ds := by
    rw [← hlen]
    exact List.take_length ds
  refine ⟨payload ++ Nat.repr (checksumVal payload), checksumVal payload,
    ?_, ?_, hval, generate_checksum_eq payload hpdig, ?_⟩
  · simp [random, h, hp, hng, hnl, htake, ← hpay, hgen, hval]
  · show (payload ++ Nat.repr (checksumVal payload)).data.length = n
    rw [data_append_repr _ _ (checksumVal_lt payload), List.length_append,
      List.length_singleton]
    have hpl : payload.data.length = ds.length := by
      have hpd : payload.data = ds.map digitToChar := rfl
      rw [hpd, List.length_map]
    omega
  · rw [data_append_repr _ _ (checksumVal_lt payload)]
    simp

theorem random_first_iteration_succeeds_witness :
    ∃ out c, random "2" [7] = .ok (some out) ∧
      out.length = 2 ∧
      validate out = some (.ok true) ∧
      generate_checksum (String.mk ([7].map digitToChar)) = some c ∧
      out.data.getLast? = some (digitToChar c) :=
  random_first_iteration_succeeds "2" 2 [7] rfl rfl (by omega) (by omega)
    rfl (by decide)

/-- Claim C10: `ContainsSpaces` is raised only for the ASCII space
character: an input containing whitespace such as tab, carriage return or
newline, but no space, minus or dot, is rejected by `generate`, `validate`
and `random` with `NonNumeric`. -/
theorem nonspace_whitespace_non_numeric (v : String)
    (hsp : ' ' ∉ v.data) (hmn : '-' ∉ v.data) (hdt : '.' ∉ v.data)
    (hws : ∃ c ∈ v.data, c.isWhitespace = true ∧ c ≠ ' ') :
    handle_errors v = .error .NonNumeric ∧
    (∀ opts, generate v opts = some (.error .NonNumeric)) ∧
    validate v = some (.error .NonNumeric) ∧
    (∀ ds, random v ds = .error .NonNumeric) := by
  obtain ⟨c, hcm, hcw, hcs⟩ := hws
  have hcz : c = '\t' ∨ c = '\r' ∨ c = '\n' := by
    simp only [Char.isWhitespace, Bool.or_eq_true, decide_eq_true_eq] at hcw
    tauto
  have hcd : isAsciiDigit c = false := by
    rcases hcz with rfl | rfl | rfl <;> rfl
  have hne : v.data.isEmpty = false := by
    cases hv : v.data with
    | nil => rw [hv] at hcm; cases hcm
    | cons a l => rfl
  have hnot : ∀ (x : Char), x ∉ v.data →
      v.data.any (fun y => y == x) = false := by
    intro x hx
    rw [List.any_eq_false]
    intro y hy
    simp only [beq_iff_eq]
    intro hyx
    exact hx (hyx ▸ hy)
  have hnall : v.data.all (fun x => isAsciiDigit x) = false := by
    cases hall : v.data.all (fun x => isAsciiDigit x) with
    | false => rfl
    | true => exact absurd (List.all_eq_true.mp hall c hcm) (by simp [hcd])
  have he : handle_errors v = .error .NonNumeric := by
    simp [handle_errors, hne, hnot ' ' hsp, hnot '-' hmn, hnot '.' hdt, hnall]
  refine ⟨he, ?_, ?_, ?_⟩
  · intro opts
    simp [generate, he]
  · simp [validate, he]
  · intro ds
    simp [random, he]

theorem nonspace_whitespace_non_numeric_witness :
    handle_errors "\t1" = .error .NonNumeric ∧
    generate "\t1" none = some (.error .NonNumeric) ∧
    validate "\t1" = some (.error .NonNumeric) ∧
    random "\t1" [] = .error .NonNumeric := by
  obtain ⟨w1, w2, w3, w4⟩ := nonspace_whitespace_non_numeric "\t1"
    (by decide) (by decide) (by decide) ⟨'\t', by decide, by decide, by decide⟩
  exact ⟨w1, w2 none, w3, w4 []⟩

end Luhn
